import Mathlib

/-!
A verification development for the Clara/Joi conversational-assistant core.

The Python sources (`src/core/clara_orchestrator.py`, `src/core/memory.py`,
`src/core/ollama_client.py`, `src/core/anthropic_client.py`,
`src/core/gemini_client.py`, `src/core/voice_interface.py`, `src/app.py`)
are shallowly embedded here:

* strings are `List Char`; Python `str.lower`, substring tests (`in`),
  `str.split`, `str.replace` and `'. '.join` are re-implemented below;
* the SQLite store of `MemoryManager` is a `List Row`, oldest row first;
  timestamps produced by `datetime.now().isoformat()` are modelled as a
  strictly increasing counter (the row index at insertion time), so that
  `ORDER BY timestamp DESC` is exactly reverse insertion order;
* importance scores (Python floats 0.0 / 0.8 / 1.0 compared against 0.5)
  are modelled as exact rationals, which is faithful because the code only
  compares these fixed constants;
* the three provider SDKs, speech recognition and text-to-speech are the
  external world: an `Env` record carries the availability flags and the
  reply functions, and `Except`-valued "call outcomes" model the provider
  calls which the adapters wrap in try/except.
-/

namespace Clara

/-! ## String primitives (Python `str` operations on `List Char`) -/

/-- Python's case-insensitive comparisons all go through `str.lower`;
for the ASCII texts used by the code `Char.toLower` agrees with it. -/
def lowerStr (s : List Char) : List Char := s.map Char.toLower

/-- Python `needle in hay` (substring containment). -/
def substrOf : List Char → List Char → Bool
  | n, [] => n.isEmpty
  | n, c :: rest => n.isPrefixOf (c :: rest) || substrOf n rest

/-- Helper for `wordsOf`: accumulates the current word (reversed). -/
def wordsAux : List Char → List Char → List (List Char)
  | [], [] => []
  | [], acc => [acc.reverse]
  | c :: rest, acc =>
      if c.isWhitespace then
        if acc.isEmpty then wordsAux rest [] else acc.reverse :: wordsAux rest []
      else wordsAux rest (c :: acc)

/-- Python `str.split()` with no argument: splits on runs of whitespace,
producing no empty words. -/
def wordsOf (s : List Char) : List (List Char) := wordsAux s []

/-- Recursion worker for `removeAll`.  The fuel argument only bounds the
recursion depth (each step consumes at least one character), letting the
definition be structurally recursive. -/
def removeAllGo (pat : List Char) : Nat → List Char → List Char
  | _, [] => []
  | 0, s => s
  | fuel + 1, c :: rest =>
      if pat.isPrefixOf (c :: rest) && !pat.isEmpty then
        removeAllGo pat fuel (rest.drop (pat.length - 1))
      else
        c :: removeAllGo pat fuel rest

/-- Python `str.replace(pat, "")` for a non-empty `pat`: removes every
(left-to-right, non-overlapping) occurrence of `pat`. -/
def removeAll (pat s : List Char) : List Char := removeAllGo pat s.length s

/-- Recursion worker for `splitSeq`, fueled like `removeAllGo`. -/
def splitSeqGo (sep : List Char) : Nat → List Char → List (List Char)
  | _, [] => [[]]
  | 0, s => [s]
  | fuel + 1, c :: rest =>
      if sep.isPrefixOf (c :: rest) && !sep.isEmpty then
        [] :: splitSeqGo sep fuel (rest.drop (sep.length - 1))
      else
        match splitSeqGo sep fuel rest with
        | [] => [[c]]
        | w :: ws => (c :: w) :: ws

/-- Python `str.split(sep)` for a non-empty separator `sep`: cuts at each
left-to-right, non-overlapping occurrence, keeping empty fragments. -/
def splitSeq (sep s : List Char) : List (List Char) := splitSeqGo sep s.length s

/-- Python `sep.join(fragments)`. -/
def joinSeq (sep : List Char) : List (List Char) → List Char
  | [] => []
  | [x] => x
  | x :: xs => x ++ sep ++ joinSeq sep xs

end Clara

namespace Clara

/-! ## Memory Store (`src/core/memory.py`, class `MemoryManager`)

A stored conversation row.  `ts` models the ISO timestamp: rows are written
with `datetime.now().isoformat()`, which is strictly increasing between two
inserts at microsecond resolution, so we let `ts` be the number of rows
already stored.  `flag` is the row's entry in `important_memories`
(at most one per conversation, created by `check_importance`). -/

structure Row where
  ts : Nat
  user_message : List Char
  joi_response : List Char
  backend : List Char
  model : List Char
  flag : Option ℚ
  deriving DecidableEq, Repr

/-- The `conversations` table (joined with `important_memories`),
oldest row first. -/
abbrev Store := List Row

/-- `MemoryManager.check_importance`, explicit-marker list. -/
def importance_keywords : List (List Char) :=
  ["remember this".toList, "important".toList, "don't forget".toList,
   "for future reference".toList, "keep in mind".toList]

/-- `MemoryManager.check_importance`, personal-information marker list. -/
def personal_markers : List (List Char) :=
  ["my name is".toList, "i work at".toList, "i live in".toList,
   "my favorite".toList]

/-- Python `max` on two rationals (returns the second argument exactly
when it is strictly larger, like Python's binary `max`). -/
def maxQ (a b : ℚ) : ℚ := if a < b then b else a

/-- `0.8`, the personal-marker score. -/
def scorePersonal : ℚ := mkRat 4 5

/-- `0.5`, the persistence threshold. -/
def scoreThreshold : ℚ := mkRat 1 2

/-- The importance score computed by `MemoryManager.check_importance`:
the first loop sets the score to `1.0` (and breaks) if any explicit keyword
occurs in the lowercased user message, the second loop folds
`max(score, 0.8)` over the personal markers that occur. -/
def check_importance_score (user_message : List Char) : ℚ :=
  personal_markers.foldl
    (fun score marker =>
      if substrOf marker (lowerStr user_message) then maxQ score scorePersonal else score)
    (if importance_keywords.any (fun k => substrOf k (lowerStr user_message)) then 1 else 0)

/-- The `important_memories` entry created (via `mark_important`) by
`check_importance` when the score exceeds `0.5`, else nothing. -/
def importanceFlag (user_message : List Char) : Option ℚ :=
  let score := check_importance_score user_message
  if score > scoreThreshold then some score else none

/-- `MemoryManager.store_conversation`: inserts one row (timestamped after
all existing rows) and runs `check_importance` on it. -/
def store_conversation (store : Store) (user_message joi_response backend model : List Char) :
    Store :=
  store ++ [⟨store.length, user_message, joi_response, backend, model,
            importanceFlag user_message⟩]

/-- The dict built by `MemoryManager.get_recent_conversations` for each row
(the SELECT projects these five columns). -/
structure ConvView where
  timestamp : Nat
  user_message : List Char
  joi_response : List Char
  backend : List Char
  model : List Char
  deriving DecidableEq, Repr

/-- Projection of a stored row to the returned dict. -/
def rowView (r : Row) : ConvView :=
  ⟨r.ts, r.user_message, r.joi_response, r.backend, r.model⟩

/-- `MemoryManager.get_recent_conversations`: `ORDER BY timestamp DESC
LIMIT ?`, then `list(reversed(...))` to restore chronological order. -/
def get_recent_conversations (store : Store) (limit : Nat) : List ConvView :=
  (((store.reverse.take limit).map rowView).reverse)

/-- The dict built by `MemoryManager.search_memories` for each row:
`importance` is `row[3] if row[3] else 0.0` on the LEFT JOIN. -/
structure SearchHit where
  timestamp : Nat
  user_message : List Char
  joi_response : List Char
  importance : ℚ
  deriving DecidableEq, Repr

/-- `ORDER BY im.importance_score DESC NULLS LAST, c.timestamp DESC` as a
"comes no later than" test between joined rows. -/
def searchLE (a b : Row) : Bool :=
  match a.flag, b.flag with
  | some x, some y => if x = y then decide (b.ts ≤ a.ts) else decide (y ≤ x)
  | some _, none => true
  | none, some _ => false
  | none, none => decide (b.ts ≤ a.ts)

/-- Ordered insert for `sortByLE`. -/
def insertLE (le : Row → Row → Bool) (x : Row) : List Row → List Row
  | [] => [x]
  | y :: ys => if le x y then x :: y :: ys else y :: insertLE le x ys

/-- Insertion sort; since row timestamps are distinct, `searchLE` is a
total strict order on any store and the sorted result is the unique one
the SQL `ORDER BY` describes. -/
def sortByLE (le : Row → Row → Bool) : List Row → List Row
  | [] => []
  | x :: xs => insertLE le x (sortByLE le xs)

/-- `MemoryManager.search_memories`: `LIKE '%query%'` on user or response
text (SQLite LIKE is case-insensitive on ASCII; the query is treated as a
literal, i.e. it contains no `%`/`_` wildcards), ordered by importance
descending with unscored rows last, then recency, limited. -/
def search_memories (store : Store) (query : List Char) (limit : Nat) : List SearchHit :=
  let q := lowerStr query
  let matched := store.filter
    (fun r => substrOf q (lowerStr r.user_message) || substrOf q (lowerStr r.joi_response))
  ((sortByLE searchLE matched).take limit).map
    (fun r => ⟨r.ts, r.user_message, r.joi_response, r.flag.getD 0⟩)

end Clara

namespace Clara

/-! ## Backend adapters (`src/core/*_client.py`)

Each adapter's `chat` wraps the provider call in try/except and returns a
canned fallback string on every error, so the orchestrator never sees an
exception.  The provider call itself is the external world: its outcome is
a parameter of type `Except ε (List Char)` (a raised exception or the
response text extracted from the provider reply). -/

/-- Python `try: body except: handler` where every except clause returns a
string: the wrapped computation never propagates an error. -/
def tryCatchAll {ε : Type} (body : Except ε (List Char)) (handler : ε → List Char) :
    Except ε (List Char) :=
  match body with
  | .ok t => .ok t
  | .error e => .ok (handler e)

/-- The exception classes caught by `AnthropicClient.chat`
(`anthropic.RateLimitError`, `anthropic.APIError`, bare `Exception`). -/
inductive ClaudeErr | rateLimit | apiErr | otherErr
  deriving DecidableEq, Repr

/-- `AnthropicClient.chat`: unconfigured-client message, then try/except
with one canned string per exception class. -/
def anthropic_chat (available : Bool) (call : Except ClaudeErr (List Char)) :
    Except ClaudeErr (List Char) :=
  if !available then
    .ok "Claude integration not configured. Add ANTHROPIC_API_KEY to .env".toList
  else
    tryCatchAll call fun e =>
      match e with
      | .rateLimit =>
          "I need to pace myself - too many complex thoughts at once. Try again in a moment.".toList
      | .apiErr => "Having trouble accessing my extended capabilities right now.".toList
      | .otherErr => "Something went wrong connecting to my extended processing.".toList

/-- `OllamaClient.chat`: a single bare `except Exception` clause. -/
def ollama_chat (call : Except Unit (List Char)) : Except Unit (List Char) :=
  tryCatchAll call fun _ =>
    "Having trouble accessing my local processing. Check if Ollama is running.".toList

/-- `GeminiClient.chat`: unconfigured-model message, then a single bare
`except Exception` clause. -/
def gemini_chat (available : Bool) (call : Except Unit (List Char)) :
    Except Unit (List Char) :=
  if !available then
    .ok "Gemini integration not configured. Add GOOGLE_API_KEY to .env".toList
  else
    tryCatchAll call fun _ =>
      "Having trouble accessing Gemini consciousness right now.".toList

/-- `OllamaClient.switch_model`: validate the name against the live model
list; switch and return `True` on success, return `False` leaving the
current model untouched otherwise.  `available` is what `list_models()`
returned (the live list, or `[]` if the server call failed). -/
def switch_model (available : List (List Char)) (current_model name : List Char) :
    Bool × List Char :=
  if name ∈ available then (true, name) else (false, current_model)

/-- The `/api/switch_model` route of `src/app.py`: HTTP status code,
`status` field of the JSON body, and the resulting current model. -/
def app_switch_model (available : List (List Char)) (current_model name : List Char) :
    Nat × List Char × List Char :=
  let r := switch_model available current_model name
  if r.1 then (200, "success".toList, r.2) else (400, "error".toList, r.2)

end Clara

namespace Clara

/-! ## Orchestrator (`src/core/clara_orchestrator.py`) -/

/-- Role tag of a context fragment. -/
inductive Role | user | assistant
  deriving DecidableEq, Repr

/-- One entry of the context list handed to a backend
(`{'role': ..., 'content': ...}`). -/
structure Frag where
  role : Role
  content : List Char
  deriving DecidableEq, Repr

/-- Which backend produced a response (`result['backend']`). -/
inductive Backend | ollama | claude | gemini
  deriving DecidableEq, Repr

/-- The string stored in the `backend` column. -/
def backendName : Backend → List Char
  | .ollama => "ollama".toList
  | .claude => "claude".toList
  | .gemini => "gemini".toList

/-- The external world of one request: availability of the three backends
(`is_available()` / `test_connection()`, assumed stable for the duration of
the request), the Ollama current model, and the adapters' total reply
behaviour (total functions of message and context, justified by the
fail-soft adapter contract proved about `anthropic_chat` & co. below).
`summaryRaises` models the corner in which the `ollama.chat` call made by
`generate_voice_summary` raises something its own catch-all does not stop
(e.g. `KeyboardInterrupt`), which is what the `except:` there is for. -/
structure Env where
  claudeAvail : Bool
  geminiAvail : Bool
  ollamaConn : Bool
  currentModel : List Char
  claudeReply : List Char → List Frag → List Char
  geminiReply : List Char → List Frag → List Char
  ollamaReply : List Char → List Frag → List Char
  summaryRaises : Bool

/-- `AnthropicClient.model` in `src/core/anthropic_client.py`. -/
def claudeModel : List Char := "claude-3-5-sonnet-20241022".toList

/-- `GeminiClient.model_name` in `src/core/gemini_client.py`. -/
def geminiModel : List Char := "gemini-1.5-pro".toList

/-- The voice-mode instruction prepended by `ClaraOrchestrator.chat` and
stripped again before persisting. -/
def voiceInstr : List Char :=
  "[Respond concisely for voice - max 2-3 sentences] ".toList

/-- `ClaraOrchestrator.get_relevant_context` before the final `[-20:]`
truncation: recent conversations expanded to user/assistant pairs, then for
each of the first three long words of the message the important search hits
are pushed onto the front. -/
def context_full (store : Store) (message : List Char) : List Frag :=
  let base := (get_recent_conversations store 5).foldl
    (fun acc conv => acc ++ [⟨.user, conv.user_message⟩, ⟨.assistant, conv.joi_response⟩]) []
  let keywords := ((wordsOf message).filter (fun w => w.length > 4)).take 3
  keywords.foldl
    (fun acc kw =>
      (search_memories store kw 2).foldl
        (fun acc2 mem =>
          if mem.importance > scoreThreshold then
            ⟨.user, mem.user_message⟩ :: ⟨.assistant, mem.joi_response⟩ :: acc2
          else acc2)
        acc)
    base

/-- Python `context[-20:]`. -/
def lastFrags (n : Nat) (l : List Frag) : List Frag := l.drop (l.length - n)

/-- `ClaraOrchestrator.get_relevant_context`. -/
def get_relevant_context (store : Store) (message : List Char) : List Frag :=
  lastFrags 20 (context_full store message)

/-- The backend chosen by the if/elif chain of `ClaraOrchestrator.chat`. -/
def chatChoice (env : Env) (use_claude use_gemini : Bool) : Backend :=
  if use_claude && env.claudeAvail then .claude
  else if use_gemini && env.geminiAvail then .gemini
  else if env.claudeAvail && !env.ollamaConn then .claude
  else if env.geminiAvail && !env.ollamaConn then .gemini
  else .ollama

/-- The response text produced by a given backend's `chat`. -/
def backendReply (env : Env) (b : Backend) (message : List Char) (context : List Frag) :
    List Char :=
  match b with
  | .claude => env.claudeReply message context
  | .gemini => env.geminiReply message context
  | .ollama => env.ollamaReply message context

/-- The `model` identifier reported for a given backend. -/
def backendModelId (env : Env) : Backend → List Char
  | .claude => claudeModel
  | .gemini => geminiModel
  | .ollama => env.currentModel

/-- The dict returned by `ClaraOrchestrator.chat`. -/
structure ChatResult where
  response : List Char
  backend : Backend
  model : List Char
  deriving Repr

/-- `ClaraOrchestrator.chat`: build context, optionally prefix the voice
instruction, pick the backend (each branch of the Python if/elif chain
invokes the chosen backend and records its model), store the exchange with
the voice instruction stripped from the user message, return the result. -/
def chat (env : Env) (store : Store) (message : List Char)
    (use_claude use_gemini voice_mode : Bool) : ChatResult × Store :=
  let context := get_relevant_context store message
  let message := if voice_mode then voiceInstr ++ message else message
  let backend := chatChoice env use_claude use_gemini
  let response := backendReply env backend message context
  let model := backendModelId env backend
  (⟨response, backend, model⟩,
   store_conversation store (removeAll voiceInstr message) response (backendName backend) model)

/-- `ClaraOrchestrator.smart_routing`, complexity lexicon. -/
def complex_indicators : List (List Char) :=
  ["analyze".toList, "complex".toList, "detailed".toList, "explain in depth".toList,
   "strategy".toList, "comprehensive".toList, "evaluate".toList, "compare".toList,
   "create".toList, "write".toList, "design".toList, "plan".toList, "research".toList,
   "critique".toList, "review".toList, "assess".toList, "synthesize".toList]

/-- `needs_frontier` in `ClaraOrchestrator.smart_routing`: any complexity
indicator occurs in the lowercased message, or the message exceeds 500
characters. -/
def needs_frontier (message : List Char) : Bool :=
  complex_indicators.any (fun ind => substrOf ind (lowerStr message)) ||
    message.length > 500

/-- `ClaraOrchestrator.smart_routing`. -/
def smart_routing (env : Env) (store : Store) (message : List Char) (voice_mode : Bool) :
    ChatResult × Store :=
  if needs_frontier message && !voice_mode then
    if env.claudeAvail then chat env store message true false voice_mode
    else if env.geminiAvail then chat env store message false true voice_mode
    else chat env store message false false voice_mode
  else chat env store message false false voice_mode

/-- The `/api/chat` route of `src/app.py`: explicit `use_claude` /
`use_gemini` flags short-circuit to `clara.chat`, otherwise
`clara.smart_routing` runs. -/
def app_chat (env : Env) (store : Store) (message : List Char)
    (use_claude use_gemini voice_mode : Bool) : ChatResult × Store :=
  if use_claude then chat env store message true false voice_mode
  else if use_gemini then chat env store message false true voice_mode
  else smart_routing env store message voice_mode

end Clara

namespace Clara

/-! ## Voice flow (`ClaraOrchestrator.generate_voice_summary`,
`ClaraOrchestrator.voice_chat`, `VoiceInterface.listen`) -/

/-- The f-string summarization prompt of
`ClaraOrchestrator.generate_voice_summary` (its fixed template text with
the original query and the full response interpolated). -/
def summary_prompt (full_response original_query : List Char) : List Char :=
  "\n        Original question: ".toList ++
    (original_query ++
      ("\n        \n        Full response: ".toList ++
        (full_response ++
          ("\n        \n        Create a 1-2 sentence spoken response that:\n" ++
           "        - Captures the key point\n" ++
           "        - Sounds natural when spoken aloud\n" ++
           "        - Uses conversational language\n" ++
           "        - Ends with a natural pause point\n" ++
           "        \n        Remember: You are Clara, direct and clear.\n        ").toList)))

/-- Python `'. '`, the sentence delimiter used by the fallback. -/
def periodSpace : List Char := ". ".toList

/-- `ClaraOrchestrator.generate_voice_summary`: call the local model on the
summarization prompt; if that call raises, fall back to the first two
`'. '`-fragments of the full response, re-joined and terminated with a
period. -/
def generate_voice_summary (env : Env) (full_response original_query : List Char) :
    List Char :=
  if env.summaryRaises then
    joinSeq periodSpace ((splitSeq periodSpace full_response).take 2) ++ ['.']
  else
    env.ollamaReply (summary_prompt full_response original_query) []

/-- The possible outcomes of one `VoiceInterface.listen` call. -/
inductive ListenOutcome
  | recognized (text : List Char)
  | unknownValue
  | requestFailed
  | timedOut
  | micFailed
  deriving DecidableEq, Repr

/-- `VoiceInterface.listen`: recognized text, or `None` on unintelligible
audio (`sr.UnknownValueError`), recognition-service failure
(`sr.RequestError`), listening timeout (`sr.WaitTimeoutError`) or a
microphone error. -/
def listen : ListenOutcome → Option (List Char)
  | .recognized t => some t
  | .unknownValue => none
  | .requestFailed => none
  | .timedOut => none
  | .micFailed => none

/-- The dict returned by `ClaraOrchestrator.voice_chat`. -/
inductive VoiceResult
  | failure (message : List Char)
  | success (input response voice_response : List Char)
      (backend : Backend) (model : List Char) (voice_output : Bool)
  deriving Repr

/-- `ClaraOrchestrator.voice_chat`: listen; bail out with an error dict on
missing speech (`if not text:` — `None` or empty string); otherwise run
`smart_routing` with `voice_mode=False` for the full response, condense it
with `generate_voice_summary`, optionally speak the condensed version (TTS
has no effect on the store), and return both versions. -/
def voice_chat (env : Env) (store : Store) (outcome : ListenOutcome)
    (use_voice_input use_voice_output : Bool) : VoiceResult × Store :=
  if use_voice_input then
    match listen outcome with
    | none => (.failure "No speech detected".toList, store)
    | some text =>
      if text.isEmpty then (.failure "No speech detected".toList, store)
      else
        let r := smart_routing env store text false
        let voice_response := generate_voice_summary env r.1.response text
        (.success text r.1.response voice_response r.1.backend r.1.model use_voice_output,
         r.2)
  else (.failure "Voice input not requested".toList, store)

end Clara

namespace Clara

/-! ## Spec-side definitions

These transcribe the *spec's words* (spec.md §4.2, §4.3, §4.6, §8), to be
compared against the code-side definitions above. -/

/-- Per the spec, §4.2: "prefer frontier-adapter-A if available, else
frontier-adapter-B if available, else fall back to the local backend". -/
def frontierFirst (env : Env) : Backend :=
  if env.claudeAvail then .claude
  else if env.geminiAvail then .gemini
  else .ollama

/-- Per the spec, §4.2: "use the local backend — unless the local backend
is unreachable, in which case fall back through the same
frontier-adapter-A → frontier-adapter-B order". -/
def localFirst (env : Env) : Backend :=
  if env.ollamaConn then .ollama
  else if env.claudeAvail then .claude
  else if env.geminiAvail then .gemini
  else .ollama

/-- Per the spec, §4.2: the routing heuristic over (message, availability
flags): complexity keyword or length over 500 triggers the frontier
preference, otherwise local-first. -/
def routingDecision (env : Env) (message : List Char) : Backend :=
  if needs_frontier message then frontierFirst env else localFirst env

/-- Per the spec, §4.3: the recency window "expanded to a user/assistant
pair" per exchange. -/
def expandPairs : List ConvView → List Frag
  | [] => []
  | c :: rest =>
      ⟨.user, c.user_message⟩ :: ⟨.assistant, c.joi_response⟩ :: expandPairs rest

/-- Per the spec, §4.3: "any match with importance score > 0.5 is
prepended (inserted at the front, user-fragment then assistant-fragment)". -/
def prependImportant : List SearchHit → List Frag → List Frag
  | [], acc => acc
  | m :: rest, acc =>
      prependImportant rest
        (if m.importance > scoreThreshold then
          ⟨.user, m.user_message⟩ :: ⟨.assistant, m.joi_response⟩ :: acc
         else acc)

/-- Per the spec, §4.3: "for each [keyword] run a substring search over
stored exchanges (limit 2 results per keyword)", prepending the important
matches. -/
def keywordPass (store : Store) : List (List Char) → List Frag → List Frag
  | [], acc => acc
  | kw :: rest, acc => keywordPass store rest (prependImportant (search_memories store kw 2) acc)

/-- First occurrence of each word, in order (for the spec's "first 3
distinct such words in order"). -/
def distinctKeep (seen : List (List Char)) : List (List Char) → List (List Char)
  | [] => []
  | w :: ws => if w ∈ seen then distinctKeep seen ws else w :: distinctKeep (w :: seen) ws

/-- Context assembly exactly as the spec (§4.3) words it, including "take
the first 3 *distinct* such words in order". -/
def contextPerSpec (store : Store) (message : List Char) : List Frag :=
  let keywords := (distinctKeep [] ((wordsOf message).filter (fun w => w.length > 4))).take 3
  lastFrags 20 (keywordPass store keywords (expandPairs (get_recent_conversations store 5)))

/-- Context assembly as the spec words it, amended at the single point the
code forces: the keywords are the first 3 long words *with duplicates
kept* (the code's `keywords[:3]` does not deduplicate). -/
def contextAmended (store : Store) (message : List Char) : List Frag :=
  let keywords := ((wordsOf message).filter (fun w => w.length > 4)).take 3
  lastFrags 20 (keywordPass store keywords (expandPairs (get_recent_conversations store 5)))

/-- Per the spec, §4.6/§8: "the most recent N in chronological
(oldest-first) order" — the last `n` stored rows in storage order. -/
def lastStored (store : Store) (n : Nat) : List Row :=
  store.drop (store.length - n)

end Clara

namespace Clara

/-! ## Theorems -/

/-- **C1.** For every message and every combination of backend
availability states, the backend chosen by `smart_routing` (with the
voice-mode flag at its default `False`, the spec's `routingDecision` having
no voice parameter) is the spec's heuristic: complexity keyword
(case-insensitive substring) or length over 500 characters selects Claude
if available, else Gemini if available, else Ollama; otherwise Ollama if
reachable, else Claude, else Gemini. -/
theorem routing_heuristic_correct (env : Env) (store : Store) (message : List Char) :
    ((smart_routing env store message false).1).backend = routingDecision env message := by
  obtain ⟨ca, ga, oc, cm, f1, f2, f3, sr⟩ := env
  cases hnf : needs_frontier message <;> cases ca <;> cases ga <;> cases oc <;>
    simp [smart_routing, routingDecision, frontierFirst, localFirst, chat, chatChoice, hnf]

end Clara

namespace Clara

/-- A concrete world for the override counterexample: Claude unavailable,
Gemini available, Ollama reachable. -/
def envCex : Env :=
  { claudeAvail := false, geminiAvail := true, ollamaConn := true,
    currentModel := "dolphin-mistral:7b".toList,
    claudeReply := fun _ _ => [], geminiReply := fun _ _ => [],
    ollamaReply := fun _ _ => [], summaryRaises := false }

/-- A message containing the complexity keyword `analyze`. -/
def msgCex : List Char := "analyze this".toList

/-- **C2, counterexample.** A chat request forcing Claude (`use_claude`)
while Claude is unavailable, for a message that triggers the complexity
heuristic, with Gemini available and Ollama reachable: the code answers
with Ollama, but the §4.2 heuristic — which the claim says takes over —
would select Gemini.  So the claim as stated is false. -/
theorem override_unavailable_counterexample :
    (chat envCex [] msgCex true false false).1.backend = Backend.ollama
    ∧ needs_frontier msgCex = true
    ∧ routingDecision envCex msgCex = Backend.gemini
    ∧ Backend.ollama ≠ Backend.gemini := by
  refine ⟨rfl, by decide, ?_, by decide⟩
  have h : needs_frontier msgCex = true := by decide
  simp [routingDecision, h, frontierFirst, envCex]

/-- **C2, amended.** An explicit override is honoured when the forced
backend is available (and the response then comes from that backend);
when the forced backend is unavailable, the *local-first fallback chain*
(local if reachable, else Claude if available, else Gemini if available,
else local) applies — regardless of complexity keywords or length. -/
theorem override_with_local_first_fallback (env : Env) (store : Store)
    (message : List Char) (ug vm : Bool) :
    ((app_chat env store message true ug vm).1.backend
        = if env.claudeAvail then Backend.claude else localFirst env)
    ∧ ((app_chat env store message false true vm).1.backend
        = if env.geminiAvail then Backend.gemini else localFirst env)
    ∧ ((app_chat env store message true ug vm).1.response
        = backendReply env (if env.claudeAvail then Backend.claude else localFirst env)
            (if vm then voiceInstr ++ message else message)
            (get_relevant_context store message))
    ∧ ((app_chat env store message false true vm).1.response
        = backendReply env (if env.geminiAvail then Backend.gemini else localFirst env)
            (if vm then voiceInstr ++ message else message)
            (get_relevant_context store message)) := by
  obtain ⟨ca, ga, oc, cm, f1, f2, f3, sr⟩ := env
  cases ca <;> cases ga <;> cases oc <;>
    simp [app_chat, chat, chatChoice, localFirst, backendReply]

end Clara

namespace Clara

/-- A fragment list that is a concatenation of user/assistant pairs. -/
def pairChunks : List Frag → Bool
  | [] => true
  | [_] => false
  | u :: a :: rest => u.role == Role.user && a.role == Role.assistant && pairChunks rest

theorem pairChunks_cons_pair (u a : List Char) (l : List Frag)
    (h : pairChunks l = true) :
    pairChunks (⟨.user, u⟩ :: ⟨.assistant, a⟩ :: l) = true := by
  simp [pairChunks, h]

theorem pairChunks_append : ∀ (a b : List Frag),
    pairChunks a = true → pairChunks b = true → pairChunks (a ++ b) = true
  | [], _, _, hb => by simpa using hb
  | [_], _, ha, _ => by simp [pairChunks] at ha
  | u :: v :: rest, b, ha, hb => by
      simp only [pairChunks, Bool.and_eq_true, beq_iff_eq] at ha
      simp only [List.cons_append, pairChunks, Bool.and_eq_true, beq_iff_eq]
      exact ⟨⟨ha.1.1, ha.1.2⟩, pairChunks_append rest b ha.2 hb⟩

theorem pairChunks_length_even : ∀ (l : List Frag),
    pairChunks l = true → l.length % 2 = 0
  | [], _ => rfl
  | [_], h => by simp [pairChunks] at h
  | _ :: _ :: rest, h => by
      simp only [pairChunks, Bool.and_eq_true] at h
      have := pairChunks_length_even rest h.2
      simp only [List.length_cons]
      omega

theorem pairChunks_drop_even : ∀ (k : Nat) (l : List Frag),
    pairChunks l = true → pairChunks (l.drop (2 * k)) = true := by
  intro k
  induction k with
  | zero => intro l h; simpa using h
  | succ n ih =>
      intro l h
      match l, h with
      | [], _ => simp [pairChunks]
      | [_], h => simp [pairChunks] at h
      | u :: a :: rest, h =>
          have h' : pairChunks rest = true := by
            simp only [pairChunks, Bool.and_eq_true] at h
            exact h.2
          have hdrop : (u :: a :: rest).drop (2 * (n + 1)) = rest.drop (2 * n) := by
            have : 2 * (n + 1) = 2 * n + 1 + 1 := by ring
            rw [this]
            rfl
          rw [hdrop]
          exact ih rest h'

theorem pairChunks_recent_fold (l : List ConvView) :
    ∀ acc : List Frag, pairChunks acc = true →
      pairChunks (l.foldl
        (fun acc conv =>
          acc ++ [⟨.user, conv.user_message⟩, ⟨.assistant, conv.joi_response⟩]) acc) = true := by
  induction l with
  | nil => intro acc h; simpa using h
  | cons c rest ih =>
      intro acc h
      simp only [List.foldl_cons]
      exact ih _ (pairChunks_append _ _ h (by simp [pairChunks]))

theorem pairChunks_hits_fold (ms : List SearchHit) :
    ∀ acc : List Frag, pairChunks acc = true →
      pairChunks (ms.foldl
        (fun acc2 mem =>
          if mem.importance > scoreThreshold then
            ⟨.user, mem.user_message⟩ :: ⟨.assistant, mem.joi_response⟩ :: acc2
          else acc2) acc) = true := by
  induction ms with
  | nil => intro acc h; simpa using h
  | cons m rest ih =>
      intro acc h
      simp only [List.foldl_cons]
      by_cases hm : m.importance > scoreThreshold
      · simp only [if_pos hm]
        exact ih _ (pairChunks_cons_pair _ _ _ h)
      · simp only [if_neg hm]
        exact ih _ h

theorem pairChunks_context_full (store : Store) (message : List Char) :
    pairChunks (context_full store message) = true := by
  rw [context_full]
  generalize ((wordsOf message).filter fun w => w.length > 4).take 3 = kws
  have hbase := pairChunks_recent_fold (get_recent_conversations store 5) [] rfl
  revert hbase
  generalize (get_recent_conversations store 5).foldl _ [] = base
  intro hbase
  induction kws generalizing base with
  | nil => simpa using hbase
  | cons kw rest ih =>
      simp only [List.foldl_cons]
      exact ih _ (pairChunks_hits_fold _ _ hbase)

/-- **C3.** For every message and every state of the Memory Store, the
assembled context has at most 20 fragments, and it is a concatenation of
role-tagged pairs, user fragment then assistant fragment (truncation to
the last 20 always cuts at a pair boundary, because every insertion adds
exactly one such pair). -/
theorem context_bounded_and_paired (store : Store) (message : List Char) :
    (get_relevant_context store message).length ≤ 20
    ∧ pairChunks (get_relevant_context store message) = true := by
  have hfull := pairChunks_context_full store message
  have heven := pairChunks_length_even _ hfull
  constructor
  · rw [get_relevant_context, lastFrags]
    simp only [List.length_drop]
    omega
  · rw [get_relevant_context, lastFrags]
    obtain ⟨k, hk⟩ : ∃ k, (context_full store message).length - 20 = 2 * k :=
      ⟨((context_full store message).length - 20) / 2, by omega⟩
    rw [hk]
    exact pairChunks_drop_even k _ hfull

end Clara

namespace Clara

theorem recent_fold_eq_expandPairs (l : List ConvView) :
    ∀ acc : List Frag,
      l.foldl (fun acc conv =>
          acc ++ [⟨.user, conv.user_message⟩, ⟨.assistant, conv.joi_response⟩]) acc
        = acc ++ expandPairs l := by
  induction l with
  | nil => intro acc; simp [expandPairs]
  | cons c rest ih =>
      intro acc
      simp only [List.foldl_cons, expandPairs, ih]
      simp

theorem hits_fold_eq_prependImportant (ms : List SearchHit) :
    ∀ acc : List Frag,
      ms.foldl (fun acc2 mem =>
          if mem.importance > scoreThreshold then
            ⟨.user, mem.user_message⟩ :: ⟨.assistant, mem.joi_response⟩ :: acc2
          else acc2) acc
        = prependImportant ms acc := by
  induction ms with
  | nil => intro acc; rfl
  | cons m rest ih =>
      intro acc
      simp only [List.foldl_cons, prependImportant, ih]

theorem keyword_fold_eq_keywordPass (store : Store) (kws : List (List Char)) :
    ∀ acc : List Frag,
      kws.foldl (fun acc kw =>
          (search_memories store kw 2).foldl (fun acc2 mem =>
            if mem.importance > scoreThreshold then
              ⟨.user, mem.user_message⟩ :: ⟨.assistant, mem.joi_response⟩ :: acc2
            else acc2) acc) acc
        = keywordPass store kws acc := by
  induction kws with
  | nil => intro acc; rfl
  | cons kw rest ih =>
      intro acc
      rw [List.foldl_cons, ih, keywordPass]
      simp only [hits_fold_eq_prependImportant]

/-- **C4, amended theorem.** Context assembly behaves exactly as the spec
describes — recency window of 5 expanded to pairs, per-keyword substring
search with limit 2, prepending matches with importance above 0.5,
truncation to the last 20 in insertion order — except that the search
keywords are the first 3 words longer than 4 characters *counted with
duplicates* (the code's `keywords[:3]` does not deduplicate). -/
theorem context_assembly_amended (store : Store) (message : List Char) :
    get_relevant_context store message = contextAmended store message := by
  rw [get_relevant_context, context_full, contextAmended,
      recent_fold_eq_expandPairs, keyword_fold_eq_keywordPass]
  simp

/-- Store for the distinct-keywords counterexample: one exchange flagged
important (score 1.0, from "remember this") whose text contains "hello". -/
def storeCexC4 : Store :=
  store_conversation [] "remember this hello".toList "hi there".toList
    "ollama".toList "dolphin-mistral:7b".toList

/-- A message repeating one long word three times. -/
def msgCexC4 : List Char := "hello hello hello".toList

/-- **C4, counterexample.** On the message `"hello hello hello"` the code
takes the keyword list `["hello", "hello", "hello"]` (first 3 long words,
duplicates kept) and therefore prepends the same important match three
times, while the spec's "first 3 distinct words" reading searches once:
the assembled contexts differ (8 fragments versus 4). -/
theorem context_keywords_counterexample :
    get_relevant_context storeCexC4 msgCexC4 ≠ contextPerSpec storeCexC4 msgCexC4 := by
  decide

end Clara

namespace Clara

theorem maxQ_absorb (s b : ℚ) : maxQ (maxQ s b) b = maxQ s b := by
  unfold maxQ
  split_ifs <;> rfl

theorem personal_fold_eq (lower : List Char) :
    ∀ (l : List (List Char)) (s : ℚ),
      l.foldl (fun score marker =>
          if substrOf marker lower then maxQ score scorePersonal else score) s
        = if l.any (fun m => substrOf m lower) then maxQ s scorePersonal else s := by
  intro l
  induction l with
  | nil => intro s; simp
  | cons m rest ih =>
      intro s
      simp only [List.foldl_cons, List.any_cons]
      by_cases hm : substrOf m lower = true
      · simp [hm, ih, maxQ_absorb]
      · have hm' : substrOf m lower = false := by simpa using hm
        simp [hm', ih]

theorem score_of_explicit (u : List Char)
    (hany : importance_keywords.any (fun k => substrOf k (lowerStr u)) = true) :
    check_importance_score u = 1 := by
  rw [check_importance_score, personal_fold_eq, hany]
  have h1 : maxQ 1 scorePersonal = 1 := by decide
  split <;> simp [h1]

/-- **C5.** Importance detection: a user text containing "remember this"
is flagged with score exactly 1.0; one containing "my favorite" with no
explicit importance marker is flagged with score at least 0.8; one
containing no marker from either family is not flagged; and a flag is
created precisely when the computed score exceeds 0.5. -/
theorem importance_detection (u : List Char) :
    (substrOf "remember this".toList (lowerStr u) = true → importanceFlag u = some 1)
    ∧ (substrOf "my favorite".toList (lowerStr u) = true →
        importance_keywords.any (fun k => substrOf k (lowerStr u)) = false →
        ∃ s, importanceFlag u = some s ∧ mkRat 4 5 ≤ s)
    ∧ (importance_keywords.any (fun k => substrOf k (lowerStr u)) = false →
        personal_markers.any (fun k => substrOf k (lowerStr u)) = false →
        importanceFlag u = none)
    ∧ ((importanceFlag u).isSome = decide (check_importance_score u > scoreThreshold)) := by
  refine ⟨?_, ?_, ?_, ?_⟩
  · intro h
    have hany : importance_keywords.any (fun k => substrOf k (lowerStr u)) = true :=
      List.any_eq_true.mpr ⟨"remember this".toList, by simp [importance_keywords], h⟩
    have hs := score_of_explicit u hany
    rw [importanceFlag, hs]
    norm_num [scoreThreshold]
  · intro h hnone
    have hp : personal_markers.any (fun m => substrOf m (lowerStr u)) = true :=
      List.any_eq_true.mpr ⟨"my favorite".toList, by simp [personal_markers], h⟩
    have hs : check_importance_score u = scorePersonal := by
      rw [check_importance_score, personal_fold_eq, hnone, hp]
      simp only [if_false, if_true, Bool.false_eq_true]
      decide
    refine ⟨scorePersonal, ?_, le_refl _⟩
    rw [importanceFlag, hs]
    have : scorePersonal > scoreThreshold := by decide
    simp [this]
  · intro hnone hpnone
    have hs : check_importance_score u = 0 := by
      rw [check_importance_score, personal_fold_eq, hnone, hpnone]
      simp
    rw [importanceFlag, hs]
    have : ¬ ((0 : ℚ) > scoreThreshold) := by decide
    simp [this]
  · by_cases h : check_importance_score u > scoreThreshold <;>
      simp [importanceFlag, h]

/-- **C5, witness.** The three branches of `importance_detection`
exercised on concrete user texts. -/
theorem importance_detection_witness :
    importanceFlag "Please remember this fact".toList = some 1
    ∧ (∃ s, importanceFlag "my favorite color is blue".toList = some s ∧ mkRat 4 5 ≤ s)
    ∧ importanceFlag "hello there".toList = none :=
  ⟨(importance_detection _).1 (by decide),
   (importance_detection _).2.1 (by decide) (by decide),
   (importance_detection _).2.2.1 (by decide) (by decide)⟩

end Clara

namespace Clara

/-- **C6.** For every store state and every `n`, `get_recent_conversations`
returns exactly the `n` most recently stored exchanges in chronological
(oldest-first) order, with the stored field values; in particular, storing
an exchange and immediately fetching with limit 1 returns a single record
with identical user text, response text, backend and model identifiers. -/
theorem recent_exchanges_roundtrip (store : Store) (n : Nat)
    (u r b m : List Char) :
    get_recent_conversations store n = (lastStored store n).map rowView
    ∧ get_recent_conversations (store_conversation store u r b m) 1
        = [⟨store.length, u, r, b, m⟩] := by
  constructor
  · rw [get_recent_conversations, lastStored, ← List.map_reverse,
        ← List.rtake_eq_reverse_take_reverse, List.rtake]
  · simp [get_recent_conversations, store_conversation, rowView]

end Clara

namespace Clara

/-- **C7.** Each backend adapter's `chat` is fail-soft: for every
availability state and every provider-call outcome (success, rate limit,
API error, any other exception), the adapter returns a string normally —
it never propagates an exception to the orchestrator. -/
theorem adapters_never_raise :
    (∀ (a : Bool) (call : Except ClaudeErr (List Char)),
        ∃ s, anthropic_chat a call = .ok s)
    ∧ (∀ call : Except Unit (List Char), ∃ s, ollama_chat call = .ok s)
    ∧ (∀ (a : Bool) (call : Except Unit (List Char)),
        ∃ s, gemini_chat a call = .ok s) := by
  refine ⟨?_, ?_, ?_⟩
  · intro a call
    cases a <;> rcases call with t | e <;> exact ⟨_, rfl⟩
  · intro call
    rcases call with t | e <;> exact ⟨_, rfl⟩
  · intro a call
    cases a <;> rcases call with t | e <;> exact ⟨_, rfl⟩

/-- **C8.** `switch_model` validates the requested name against the live
model list: an absent name yields failure with the current model untouched
(and the HTTP route answers 400 with an error status); a present name
switches the current model and yields success (HTTP 200). -/
theorem switch_model_validation (available : List (List Char))
    (current name : List Char) :
    switch_model available current name
      = (if name ∈ available then (true, name) else (false, current))
    ∧ app_switch_model available current name
      = (if name ∈ available then (200, "success".toList, name)
         else (400, "error".toList, current)) := by
  constructor
  · rfl
  · rw [app_switch_model, switch_model]
    by_cases h : name ∈ available <;> simp [h]

end Clara

namespace Clara

theorem isPrefixOf_append_self (a b : List Char) : a.isPrefixOf (a ++ b) = true := by
  induction a with
  | nil => simp [List.isPrefixOf]
  | cons c rest ih => simp [List.isPrefixOf, ih]

theorem substrOf_self_append (n b : List Char) : substrOf n (n ++ b) = true := by
  cases n with
  | nil =>
      cases b with
      | nil => rfl
      | cons c rest => simp [substrOf]
  | cons c rest =>
      rw [List.cons_append, substrOf]
      simp [isPrefixOf_append_self (c :: rest) b]

theorem substrOf_append_left (n s : List Char) (h : substrOf n s = true) :
    ∀ a : List Char, substrOf n (a ++ s) = true := by
  intro a
  induction a with
  | nil => simpa using h
  | cons c rest ih =>
      rw [List.cons_append, substrOf]
      simp [ih]

theorem chat_result_pair (env : Env) (store : Store) (message : List Char)
    (uc ug : Bool) :
    chat env store message uc ug false
      = (⟨backendReply env (chatChoice env uc ug) message (get_relevant_context store message),
          chatChoice env uc ug,
          backendModelId env (chatChoice env uc ug)⟩,
         store_conversation store (removeAll voiceInstr message)
           (backendReply env (chatChoice env uc ug) message (get_relevant_context store message))
           (backendName (chatChoice env uc ug))
           (backendModelId env (chatChoice env uc ug))) := rfl

theorem smart_routing_persists (env : Env) (store : Store) (message : List Char) :
    (smart_routing env store message false).2
      = store_conversation store (removeAll voiceInstr message)
          (smart_routing env store message false).1.response
          (backendName (smart_routing env store message false).1.backend)
          (smart_routing env store message false).1.model := by
  rw [smart_routing]
  cases hnf : needs_frontier message <;>
    simp only [Bool.not_false, Bool.and_true, Bool.false_eq_true, if_false, if_true] <;>
    cases hca : env.claudeAvail <;> cases hga : env.geminiAvail <;>
    simp only [Bool.false_eq_true, if_false, if_true, chat_result_pair]

end Clara

namespace Clara

/-- **C9.** Voice condensation and persistence: the summarization prompt
handed to the local backend embeds both the original question and the full
answer; whenever the local-model invocation fails, the condensed version is
the first two `". "`-delimited fragments of the full response re-joined
with `". "` and terminated by a period; and a voice interaction persists
exactly one exchange, whose stored response is the full response (with the
voice-instruction prefix stripped from the stored user message) — the
condensed version is never what gets stored. -/
theorem voice_condensation_and_persistence :
    (∀ full query : List Char,
        substrOf query (summary_prompt full query) = true
        ∧ substrOf full (summary_prompt full query) = true)
    ∧ (∀ (env : Env) (full query : List Char), env.summaryRaises = true →
        generate_voice_summary env full query
          = joinSeq periodSpace ((splitSeq periodSpace full).take 2) ++ ['.'])
    ∧ (∀ (env : Env) (store : Store) (text : List Char) (uvo : Bool),
        text ≠ [] →
        (voice_chat env store (.recognized text) true uvo).1
          = .success text (smart_routing env store text false).1.response
              (generate_voice_summary env (smart_routing env store text false).1.response text)
              (smart_routing env store text false).1.backend
              (smart_routing env store text false).1.model uvo
        ∧ (voice_chat env store (.recognized text) true uvo).2
          = store_conversation store (removeAll voiceInstr text)
              (smart_routing env store text false).1.response
              (backendName (smart_routing env store text false).1.backend)
              (smart_routing env store text false).1.model) := by
  refine ⟨?_, ?_, ?_⟩
  · intro full query
    constructor
    · rw [summary_prompt]
      exact substrOf_append_left _ _ (substrOf_self_append _ _) _
    · rw [summary_prompt]
      exact substrOf_append_left _ _
        (substrOf_append_left _ _
          (substrOf_append_left _ _ (substrOf_self_append _ _) _) _) _
  · intro env full query h
    rw [generate_voice_summary, h]
    simp
  · intro env store text uvo htext
    have hne : text.isEmpty = false := by
      cases text with
      | nil => exact absurd rfl htext
      | cons c rest => rfl
    constructor
    · simp [voice_chat, listen, hne]
    · simp only [voice_chat, listen, hne, if_true, Bool.false_eq_true, if_false]
      exact smart_routing_persists env store text

/-- A concrete world for the voice witnesses: every backend up, the
summarization call raising. -/
def envVoice : Env :=
  { claudeAvail := true, geminiAvail := true, ollamaConn := true,
    currentModel := "dolphin-mistral:7b".toList,
    claudeReply := fun _ _ => "full answer".toList,
    geminiReply := fun _ _ => "full answer".toList,
    ollamaReply := fun _ _ => "full answer".toList,
    summaryRaises := true }

/-- **C9, witness.** The condensation fallback evaluated on a concrete
three-sentence response, and the persistence shape of a concrete voice
interaction. -/
theorem voice_condensation_witness :
    generate_voice_summary envVoice "One. Two. Three".toList "q".toList
      = "One. Two.".toList
    ∧ (voice_chat envVoice [] (.recognized "hi".toList) true true).2
      = store_conversation [] (removeAll voiceInstr "hi".toList)
          (smart_routing envVoice [] "hi".toList false).1.response
          (backendName (smart_routing envVoice [] "hi".toList false).1.backend)
          (smart_routing envVoice [] "hi".toList false).1.model :=
  ⟨(voice_condensation_and_persistence.2.1 envVoice "One. Two. Three".toList "q".toList
      rfl).trans (by decide),
   (voice_condensation_and_persistence.2.2 envVoice [] "hi".toList true
      (by decide)).2⟩

/-- **C10.** When listening produces no recognized text (timeout,
unintelligible audio, or recognition-service failure), `voice_chat`
returns the structured "No speech detected" error and the memory store is
returned unchanged; the result does not depend on any backend state, so no
backend adapter is consulted. -/
theorem voice_no_speech_no_effect (env : Env) (store : Store)
    (o : ListenOutcome) (uvo : Bool) (h : listen o = none) :
    voice_chat env store o true uvo
      = (.failure "No speech detected".toList, store) := by
  simp [voice_chat, h]

/-- **C10, witness.** A timed-out listen in a concrete world: error
result, store untouched. -/
theorem voice_no_speech_witness :
    voice_chat envVoice [] ListenOutcome.timedOut true true
      = (.failure "No speech detected".toList, []) :=
  voice_no_speech_no_effect envVoice [] ListenOutcome.timedOut true rfl

end Clara
